import Mathlib

/-!
Shallow embedding of the gradient-attribution core of InterpretDL:
the abstract interpreter contract (`interpretdl/interpreter/abc_interpreter.py`)
and the Smooth Gradients algorithm (`interpretdl/interpreter/smooth_grad.py`).

Modelling conventions:
* numpy float arrays are embedded over `ℚ` (exact arithmetic; the claims under
  study are structural/algebraic, not about rounding);
* a batch of images is a list of flattened images (`List (List ℚ)`): every
  reduction in the source over "all non-batch axes" becomes a reduction over a
  flattened image, which is the same function of the multiset of values;
* Python exceptions become an `Except PyErr` result;
* external collaborators (the paddle model, the autodiff engine, the random
  number generator, preprocessing and visualization) are parameters of the
  embedded functions, constrained only by the contracts the source relies on;
* stochastic draws are made explicit: `np.random.normal(0, s, shape)` is
  embedded as `s * dr i j k` where `dr` enumerates standard-normal samples
  (round, image, element); for `s = 0` the draw is exactly `0`, matching numpy.
-/

namespace InterpretDL

/-- Python exception kinds that the modelled code can raise. -/
inductive PyErr
  | typeError
  | assertionError
  | valueError
  | notImplementedError
deriving DecidableEq

/-! ## Base interpreter (`abc_interpreter.py`) -/

/-- Python values passed for the `use_cuda` parameter, classified by their
behaviour under `use_cuda in [True, False]` (Python `==` on booleans):
`pyTrue`/`pyFalse` are values equal to `True`/`False`, `nonBool` is any other
value (e.g. `None`), for which the deprecation branch is skipped. -/
inductive UseCuda
  | pyTrue
  | pyFalse
  | nonBool
deriving DecidableEq

/-- Values that may be cached in the `self.predict_fn` slot: a closure built by
`_build_predict_fn` (tagged with the `gradient_of` option it captured), some
other callable, or a non-callable value (corrupted state). -/
inductive CachedFn
  | builtFn (gradient_of : String)
  | otherCallable
  | notCallable
deriving DecidableEq

/-- Python `callable` on a cached `predict_fn` value. -/
def CachedFn.callableB : CachedFn → Bool
  | .notCallable => false
  | _ => true

/-- The deprecation warning emitted by `Interpreter.__init__` when `use_cuda`
is a boolean. -/
def useCudaWarning : String := "use_cuda would be deprecated soon. Use device directly."

/-- The diagnostic printed by `_build_predict_fn` on fallback to CPU. -/
def gpuFallbackMsg : String :=
  "Paddle is not installed with GPU support. Change to CPU version now."

/-- State of an `Interpreter` instance after construction (fields set by
`Interpreter.__init__`,`abc_interpreter.py` lines 40-42), plus a log of
warnings/diagnostics emitted so far. `M` is the opaque model-reference type. -/
structure InterpreterState (M : Type) where
  paddle_model : M
  device : String
  predict_fn : Option CachedFn
  log : List String
deriving DecidableEq

/-- Body of `Interpreter.__init__` (`abc_interpreter.py` lines 27-42):
assert the three-character device category is `cpu` or `gpu`; when `use_cuda`
is a boolean, warn, and keep the requested device only if `use_cuda` is true
and the device category is `gpu`, otherwise force `cpu`; store the fields. -/
def interpreterInit {M : Type} (pm : M) (device : String) (use_cuda : UseCuda) :
    Except PyErr (InterpreterState M) :=
  if device.take 3 ∈ ["cpu", "gpu"] then
    let dev :=
      match use_cuda with
      | .nonBool => device
      | .pyTrue => if device.take 3 = "gpu" then device else "cpu"
      | .pyFalse => "cpu"
    let lg : List String :=
      match use_cuda with
      | .nonBool => []
      | _ => [useCudaWarning]
    .ok { paddle_model := pm, device := dev, predict_fn := none, log := lg }
  else .error .assertionError

/-- The `gradient_of` options accepted by
`InputGradientInterpreter._build_predict_fn` (`abc_interpreter.py` line 145). -/
def validGradientOf : List String := ["loss", "logit", "probability"]

/-- The rebuild body of `_build_predict_fn` (`abc_interpreter.py` lines
144-209): validate `gradient_of`; if paddle has no CUDA support while the
stored device is `gpu`-categorized, print a diagnostic and mutate the stored
device to `cpu`; then (after external side effects on the model collaborator:
`paddle.set_device`, `train()` mode, batchnorm/dropout neutralization, elided
here) install a freshly built closure as `predict_fn`. -/
def buildBody {M : Type} (cudaAvailable : Bool) (st : InterpreterState M)
    (gradient_of : String) : Except PyErr (InterpreterState M) :=
  if gradient_of ∈ validGradientOf then
    let st' :=
      if !cudaAvailable && (st.device.take 3 = "gpu") then
        { st with device := "cpu", log := st.log ++ [gpuFallbackMsg] }
      else st
    .ok { st' with predict_fn := some (.builtFn gradient_of) }
  else .error .assertionError

/-- `InputGradientInterpreter._build_predict_fn` (`abc_interpreter.py` lines
139-209): if a `predict_fn` is cached, assert it is callable; then, when
`predict_fn` is unset or `rebuild` is requested, run the rebuild body,
otherwise do nothing. `cudaAvailable` models `paddle.is_compiled_with_cuda()`
reported by the runtime collaborator. -/
def buildPredictFn {M : Type} (cudaAvailable : Bool) (st : InterpreterState M)
    (rebuild : Bool) (gradient_of : String) : Except PyErr (InterpreterState M) :=
  match st.predict_fn with
  | some f =>
      if f.callableB then
        if rebuild then buildBody cudaAvailable st gradient_of else .ok st
      else .error .assertionError
  | none => buildBody cudaAvailable st gradient_of

/-! ## SmoothGradInterpreter construction (`smooth_grad.py` lines 22-42) -/

/-- Number of required parameters of `Interpreter.__init__` besides `self`
(`paddle_model`, `device`, `use_cuda`; none has a default). -/
def interpreterInitRequired : Nat := 3

/-- Python call binding for `Interpreter.__init__`: a call supplying fewer
positional arguments (beyond `self`) than the required parameter count raises
`TypeError` before the body runs. -/
def interpreterInitCheckArity (nArgs : Nat) : Except PyErr Unit :=
  if nArgs < interpreterInitRequired then .error .typeError else .ok ()

/-- Fields of a `SmoothGradInterpreter` instance as set by its `__init__`
(`smooth_grad.py` lines 34-42), were the base call to succeed. -/
structure SGState (M : Type) where
  paddle_model : M
  model_input_shape : List Nat
  data_type : String
  paddle_prepared : Bool
  use_cuda : Bool
deriving DecidableEq

/-- `SmoothGradInterpreter.__init__` (`smooth_grad.py` lines 22-42): it first
calls `Interpreter.__init__(self)`, supplying zero of the three required
arguments, and only then would set its own fields, including the correction of
`use_cuda` to `False` when `paddle.is_compiled_with_cuda()` is false
(`cudaAvailable` here). -/
def smoothGradInit {M : Type} (cudaAvailable : Bool) (pm : M) (use_cuda : Bool)
    (model_input_shape : List Nat) : Except PyErr (SGState M) := do
  let _ ← interpreterInitCheckArity 0
  .ok { paddle_model := pm,
        model_input_shape := model_input_shape,
        data_type := "float32",
        paddle_prepared := false,
        use_cuda := if cudaAvailable then use_cuda else false }

/-! ## SmoothGradInterpreter.interpret (`smooth_grad.py` lines 44-110)

The input-preprocessing, save-path and visualization collaborators are out of
scope (they do not affect the returned value); `interpret` is embedded from
the normalized numeric batch `data` on. Per the preprocessing contract the
number of display images equals the batch size, so `len(imgs)` is `data.length`.
The prepared `self.predict_fn` is the parameter `pf : Batch → Option (List Int)
→ Batch × List Int` (gradients and labels, as in `_paddle_prepare`). -/

/-- A flattened image: the multiset of its pixel values in order. -/
abbrev Image := List ℚ

/-- A batch of images (`data` in the source, first axis = batch axis). -/
abbrev Batch := List Image

/-- The per-image lengths of a batch; equal `dims` means equal numpy shape in
the flattened model. -/
def dims (b : Batch) : List Nat := b.map List.length

/-- Element of a batch at image `j`, position `k` (0 outside the batch). -/
def entry (b : Batch) (j k : Nat) : ℚ := (b.getD j []).getD k 0

/-- `np.zeros_like(data)` (`smooth_grad.py` line 88). -/
def zerosLike (b : Batch) : Batch := b.map (fun d => d.map (fun _ => (0 : ℚ)))

/-- Elementwise numpy `+` of two same-shaped batches. -/
def batchAdd (a b : Batch) : Batch := List.zipWith (List.zipWith (· + ·)) a b

/-- Elementwise numpy `/` of a batch by the integer `n_samples`
(`smooth_grad.py` line 99). -/
def batchDiv (a : Batch) (n : Nat) : Batch :=
  a.map (fun d => d.map (fun x => x / (n : ℚ)))

/-- `np.max` over all values of one image (all non-batch axes). -/
def listMax : Image → ℚ
  | [] => 0
  | x :: xs => xs.foldl max x

/-- `np.min` over all values of one image (all non-batch axes). -/
def listMin : Image → ℚ
  | [] => 0
  | x :: xs => xs.foldl min x

/-- `stds = noise_amount * (np.max(data, axis=max_axis) - np.min(data,
axis=max_axis))` (`smooth_grad.py` lines 84-86): one scalar per image,
computed from the given batch. -/
def computeStds (noise_amount : ℚ) (data : Batch) : List ℚ :=
  data.map (fun d => noise_amount * (listMax d - listMin d))

/-- The concatenated per-image noise of sampling round `i` (`smooth_grad.py`
lines 90-94): image `j` receives a fresh Gaussian draw of its own shape with
standard deviation `stds[j]`, embedded as `stds[j] * dr i j k` over
standard-normal samples `dr`. -/
def noiseFor (stds : List ℚ) (dr : Nat → Nat → Nat → ℚ) (i : Nat)
    (data : Batch) : Batch :=
  (List.range data.length).map (fun j =>
    (List.range (data.getD j []).length).map (fun k => stds.getD j 0 * dr i j k))

/-- One round of the sampling loop (`smooth_grad.py` lines 90-97): perturb the
original `data` with this round's noise, run the predict function with the
fixed `labels`, and add the gradient batch into the accumulator. -/
def sgRound (pf : Batch → Option (List Int) → Batch × List Int)
    (dr : Nat → Nat → Nat → ℚ) (data : Batch) (stds : List ℚ)
    (labels : List Int) (total : Batch) (i : Nat) : Batch :=
  batchAdd total (pf (batchAdd data (noiseFor stds dr i data)) (some labels)).1

/-- The sampling loop (`smooth_grad.py` lines 88-97): `n_samples` rounds
accumulated into a zero-initialized accumulator. -/
def sgLoop (pf : Batch → Option (List Int) → Batch × List Int)
    (dr : Nat → Nat → Nat → ℚ) (data : Batch) (stds : List ℚ)
    (labels : List Int) (n_samples : Nat) : Batch :=
  (List.range n_samples).foldl (sgRound pf dr data stds labels) (zerosLike data)

/-- Label resolution before the loop (`smooth_grad.py` lines 78-82): if
`labels` is `None`, one predict call on the clean data with `None` labels
yields the predicted labels; the labels are then reshaped to a column vector
`(len(imgs), 1)` (modelled as the flat list, which faithfully records the
entries and the length), raising `ValueError` when the element count differs
from the batch size. -/
def resolveLabels (pf : Batch → Option (List Int) → Batch × List Int)
    (data : Batch) (labels? : Option (List Int)) : Except PyErr (List Int) :=
  let labels :=
    match labels? with
    | none => (pf data none).2
    | some l => l
  if labels.length = data.length then .ok labels else .error .valueError

/-- `SmoothGradInterpreter.interpret` from the normalized batch on
(`smooth_grad.py` lines 78-110): resolve labels, compute the per-image stds
once from the unperturbed data, run the sampling loop, and return the
accumulator divided elementwise by `n_samples`. When a round would actually
draw (`n_samples ≥ 1`) with a negative standard deviation,
`np.random.normal` raises `ValueError`. -/
def sgInterpret (pf : Batch → Option (List Int) → Batch × List Int)
    (dr : Nat → Nat → Nat → ℚ) (data : Batch) (labels? : Option (List Int))
    (noise_amount : ℚ) (n_samples : Nat) : Except PyErr Batch :=
  match resolveLabels pf data labels? with
  | .error e => .error e
  | .ok labels =>
    if 0 < n_samples ∧ (computeStds noise_amount data).any (fun s => s < 0) then
      .error .valueError
    else
      .ok (batchDiv
        (sgLoop pf dr data (computeStds noise_amount data) labels n_samples)
        n_samples)

/-! ## The built predict function (`abc_interpreter.py` lines 164-207)

The closure `predict_fn(data, labels)` installed by
`InputGradientInterpreter._build_predict_fn`. The tensor `data` keeps its
numpy shape explicitly; logits live as a list of rows (`[bs, num_c]`). The
external paddle collaborators — the model forward pass, softmax,
`cross_entropy` and the autodiff engine behind `loss.backward(); data.grad` —
are fields of `PdEnv`, used exactly where the source calls them. -/

/-- A numpy/paddle tensor: its shape and its row-major values. -/
structure NdArray where
  shape : List Nat
  flat : List ℚ
deriving DecidableEq

/-- External paddle collaborators captured by the built predict function. -/
structure PdEnv where
  /-- `self.paddle_model(data)`: forward pass to logits, a `[bs, num_c]`
  matrix given as rows. -/
  model : NdArray → List (List ℚ)
  /-- `paddle.nn.functional.softmax(logits, axis=1)`. -/
  softmaxRows : List (List ℚ) → List (List ℚ)
  /-- `paddle.nn.functional.cross_entropy(logits, labels, reduction='sum')`. -/
  crossEntropySum : List (List ℚ) → List Int → ℚ
  /-- The autodiff engine: `loss.backward(); data.grad` for the given data
  tensor and loss vector. -/
  gradWrt : NdArray → List ℚ → NdArray

/-- `paddle.argmax(probas, axis=1)` on one row: index of the first maximum. -/
def argmaxAux : List ℚ → Nat → Nat → ℚ → Nat
  | [], _, bi, _ => bi
  | x :: xs, i, bi, bv =>
      if bv < x then argmaxAux xs (i + 1) i x else argmaxAux xs (i + 1) bi bv

/-- Row argmax (0 on an empty row). -/
def argmaxRow : List ℚ → Nat
  | [] => 0
  | x :: xs => argmaxAux xs 1 0 x

/-- `assert labels is None or (isinstance(labels, (list, np.ndarray)) and
len(labels) == data.shape[0])` (`abc_interpreter.py` lines 176-177). -/
def labelsOkB (shape0 : Nat) : Option (List Int) → Bool
  | none => true
  | some l => l.length == shape0

/-- `paddle.nn.functional.one_hot(labels, num_classes)` on one label. -/
def oneHotRow (numClasses : Nat) (lb : Int) : List ℚ :=
  (List.range numClasses).map (fun c => if (c : Int) = lb then 1 else 0)

/-- `paddle.sum(m * one_hot, axis=1)`: per-row dot product with one-hot rows. -/
def rowDotOneHot (m : List (List ℚ)) (oh : List (List ℚ)) : List ℚ :=
  List.zipWith (fun row o => (List.zipWith (· * ·) row o).sum) m oh

/-- `logits = self.paddle_model(data)` (`abc_interpreter.py` line 181). The
closure `predict_fn(data, labels)` of lines 164-207 is assembled below as
`predictFnIG` from these named steps. -/
def igLogits (env : PdEnv) (data : NdArray) : List (List ℚ) := env.model data

/-- `probas = paddle.nn.functional.softmax(logits, axis=1)`
(`abc_interpreter.py` line 182). -/
def igProbas (env : PdEnv) (data : NdArray) : List (List ℚ) :=
  env.softmaxRows (igLogits env data)

/-- `preds = paddle.argmax(probas, axis=1)` (`abc_interpreter.py` line 183). -/
def igPreds (env : PdEnv) (data : NdArray) : List Int :=
  (igProbas env data).map (fun r => ((argmaxRow r : Nat) : Int))

/-- The labels the predict function works with: the provided ones, or the
predictions when `labels` is `None` (`abc_interpreter.py` lines 184-185). -/
def igLabels (env : PdEnv) (data : NdArray) (labels? : Option (List Int)) :
    List Int := labels?.getD (igPreds env data)

/-- The per-row scalar target of the non-`loss` branch (`abc_interpreter.py`
lines 192-201): one-hot rows with `num_classes = probas.shape[1]` dotted with
the logits (`gradient_of = 'logit'`) or the probabilities (otherwise). -/
def igLossVec (env : PdEnv) (gradient_of : String) (data : NdArray)
    (labels : List Int) : List ℚ :=
  if gradient_of = "logit" then
    rowDotOneHot (igLogits env data)
      (labels.map (oneHotRow ((igProbas env data).headD []).length))
  else
    rowDotOneHot (igProbas env data)
      (labels.map (oneHotRow ((igProbas env data).headD []).length))

/-- The assembled closure: rank-4 assert, label-alignment assert, then either
the summed-cross-entropy target or the reshape-to-`(bs,)` (`ValueError` on a
count mismatch) followed by the one-hot target; in both cases the returned
pair is the autodiff gradient together with the labels used. -/
def predictFnIG (env : PdEnv) (gradient_of : String) (data : NdArray)
    (labels? : Option (List Int)) : Except PyErr (NdArray × List Int) :=
  if data.shape.length ≠ 4 then .error .assertionError
  else if labelsOkB (data.shape.headD 0) labels? = false then .error .assertionError
  else if gradient_of = "loss" then
    .ok (env.gradWrt data
          [env.crossEntropySum (igLogits env data) (igLabels env data labels?)],
        igLabels env data labels?)
  else if (igLabels env data labels?).length ≠ data.shape.headD 0 then
    .error .valueError
  else
    .ok (env.gradWrt data (igLossVec env gradient_of data (igLabels env data labels?)),
        igLabels env data labels?)

/-! ## Helper lemmas on batches -/

theorem getD_zipWith_add : ∀ (u v : Image) (k : Nat), u.length = v.length →
    (List.zipWith (· + ·) u v).getD k 0 = u.getD k 0 + v.getD k 0
  | [], [], k, _ => by simp
  | [], _ :: _, _, h => by simp at h
  | _ :: _, [], _, h => by simp at h
  | x :: xs, y :: ys, 0, _ => by simp
  | x :: xs, y :: ys, k + 1, h => by
      simpa using getD_zipWith_add xs ys k (by simpa using h)

theorem getD_map_zero {α : Type} : ∀ (d : List α) (k : Nat),
    (d.map (fun _ => (0 : ℚ))).getD k 0 = 0
  | [], _ => by simp
  | _ :: _, 0 => by simp
  | _ :: ds, k + 1 => by simp [getD_map_zero ds k]

theorem getD_map_div (n : Nat) : ∀ (d : Image) (k : Nat),
    (d.map (fun x => x / (n : ℚ))).getD k 0 = d.getD k 0 / (n : ℚ)
  | [], k => by simp
  | _ :: _, 0 => by simp
  | _ :: ds, k + 1 => by simpa using getD_map_div n ds k

theorem list_ext_getD : ∀ (u v : Image), u.length = v.length →
    (∀ k, u.getD k 0 = v.getD k 0) → u = v
  | [], [], _, _ => rfl
  | [], _ :: _, h, _ => by simp at h
  | _ :: _, [], h, _ => by simp at h
  | x :: xs, y :: ys, h, he => by
      have h0 := he 0
      simp only [List.getD_cons_zero] at h0
      have := list_ext_getD xs ys (by simpa using h) (fun k => by simpa using he (k + 1))
      rw [h0, this]

theorem entry_nil (j k : Nat) : entry [] j k = 0 := by
  simp [entry]

theorem entry_cons_zero (x : Image) (xs : Batch) (k : Nat) :
    entry (x :: xs) 0 k = x.getD k 0 := rfl

theorem entry_cons_succ (x : Image) (xs : Batch) (j k : Nat) :
    entry (x :: xs) (j + 1) k = entry xs j k := rfl

theorem entry_batchAdd : ∀ (a b : Batch), dims a = dims b → ∀ (j k : Nat),
    entry (batchAdd a b) j k = entry a j k + entry b j k
  | [], [], _, j, k => by simp [batchAdd, entry_nil]
  | [], _ :: _, h, _, _ => by simp [dims] at h
  | _ :: _, [], h, _, _ => by simp [dims] at h
  | x :: xs, y :: ys, h, 0, k => by
      have h' : x.length = y.length ∧ dims xs = dims ys := by simpa [dims] using h
      simpa [batchAdd, entry_cons_zero] using getD_zipWith_add x y k h'.1
  | x :: xs, y :: ys, h, j + 1, k => by
      have h' : x.length = y.length ∧ dims xs = dims ys := by simpa [dims] using h
      simpa [batchAdd, entry_cons_succ] using entry_batchAdd xs ys h'.2 j k

theorem entry_zerosLike : ∀ (b : Batch) (j k : Nat), entry (zerosLike b) j k = 0
  | [], j, k => by simp [zerosLike, entry_nil]
  | x :: xs, 0, k => by simp [zerosLike, entry_cons_zero, getD_map_zero x k]
  | x :: xs, j + 1, k => by
      simpa [zerosLike, entry_cons_succ] using entry_zerosLike xs j k

theorem entry_batchDiv (n : Nat) : ∀ (a : Batch) (j k : Nat),
    entry (batchDiv a n) j k = entry a j k / (n : ℚ)
  | [], j, k => by simp [batchDiv, entry_nil]
  | x :: xs, 0, k => by simpa [batchDiv, entry_cons_zero] using getD_map_div n x k
  | x :: xs, j + 1, k => by
      simpa [batchDiv, entry_cons_succ] using entry_batchDiv n xs j k

theorem batch_ext : ∀ (a b : Batch), dims a = dims b →
    (∀ j k, entry a j k = entry b j k) → a = b
  | [], [], _, _ => rfl
  | [], _ :: _, h, _ => by simp [dims] at h
  | _ :: _, [], h, _ => by simp [dims] at h
  | x :: xs, y :: ys, h, he => by
      have h' : x.length = y.length ∧ dims xs = dims ys := by simpa [dims] using h
      have h0 : x = y :=
        list_ext_getD x y h'.1 (fun k => by
          simpa [entry_cons_zero] using he 0 k)
      have h1 : xs = ys :=
        batch_ext xs ys h'.2 (fun j k => by
          simpa [entry_cons_succ] using he (j + 1) k)
      rw [h0, h1]

theorem dims_zerosLike (b : Batch) : dims (zerosLike b) = dims b := by
  simp [dims, zerosLike]

theorem dims_batchDiv (a : Batch) (n : Nat) : dims (batchDiv a n) = dims a := by
  simp [dims, batchDiv]

theorem dims_batchAdd : ∀ (a b : Batch), dims a = dims b →
    dims (batchAdd a b) = dims a
  | [], [], _ => rfl
  | [], _ :: _, h => by simp [dims] at h
  | _ :: _, [], h => by simp [dims] at h
  | x :: xs, y :: ys, h => by
      have h' : x.length = y.length ∧ dims xs = dims ys := by simpa [dims] using h
      have ih := dims_batchAdd xs ys h'.2
      show ((List.zipWith (· + ·) x y).length :: dims (batchAdd xs ys)) = x.length :: dims xs
      rw [List.length_zipWith, h'.1, Nat.min_self, ih]

theorem map_getD_range {α β : Type} (d : α) (f : α → β) : ∀ (l : List α),
    (List.range l.length).map (fun j => f (l.getD j d)) = l.map f
  | [] => rfl
  | x :: xs => by
      rw [List.length_cons, List.range_succ_eq_map, List.map_cons, List.map_map]
      have hc : ((fun j => f ((x :: xs).getD j d)) ∘ Nat.succ)
          = fun j => f (xs.getD j d) := by
        funext j
        simp
      rw [List.getD_cons_zero, hc, map_getD_range d f xs, List.map_cons]

theorem dims_noiseFor (stds : List ℚ) (dr : Nat → Nat → Nat → ℚ) (i : Nat)
    (data : Batch) : dims (noiseFor stds dr i data) = dims data := by
  unfold dims noiseFor
  rw [List.map_map]
  have hc : (List.length ∘ fun j =>
        (List.range (data.getD j []).length).map (fun k => stds.getD j 0 * dr i j k))
      = fun j => (data.getD j []).length := by
    funext j
    simp
  rw [hc]
  exact map_getD_range ([] : Image) List.length data


theorem getD_map_range {α : Type} (n : Nat) (g : Nat → α) (d : α) (j : Nat) :
    ((List.range n).map g).getD j d = if j < n then g j else d := by
  rw [List.getD_eq_getElem?_getD, List.getElem?_map]
  by_cases hj : j < n
  · rw [if_pos hj, List.getElem?_range hj]
    rfl
  · rw [if_neg hj, List.getElem?_eq_none (by simpa using hj)]
    rfl

theorem getD_map_of_lt {α β : Type} (f : α → β) (l : List α) (j : Nat) (d : α)
    (d' : β) (hj : j < l.length) : (l.map f).getD j d' = f (l.getD j d) := by
  rw [List.getD_eq_getElem?_getD, List.getD_eq_getElem?_getD, List.getElem?_map,
    List.getElem?_eq_getElem hj]
  rfl

theorem entry_noiseFor (stds : List ℚ) (dr : Nat → Nat → Nat → ℚ) (i : Nat)
    (data : Batch) (j k : Nat) :
    entry (noiseFor stds dr i data) j k =
      if j < data.length ∧ k < (data.getD j []).length then stds.getD j 0 * dr i j k
      else 0 := by
  unfold entry noiseFor
  rw [getD_map_range data.length _ [] j]
  by_cases hj : j < data.length
  · rw [if_pos hj, getD_map_range]
    by_cases hk : k < (data.getD j []).length
    · rw [if_pos hk, if_pos ⟨hj, hk⟩]
    · rw [if_neg hk, if_neg (fun h => hk h.2)]
  · rw [if_neg hj, if_neg (fun h => hj h.1)]
    simp

/-- The gradient batch produced by sampling round `i`: the predict function
applied to the original data perturbed by that round's fresh noise, with the
fixed labels. -/
def roundGrad (pf : Batch → Option (List Int) → Batch × List Int)
    (dr : Nat → Nat → Nat → ℚ) (data : Batch) (stds : List ℚ)
    (labels : List Int) (i : Nat) : Batch :=
  (pf (batchAdd data (noiseFor stds dr i data)) (some labels)).1

theorem sgLoop_zero (pf : Batch → Option (List Int) → Batch × List Int)
    (dr : Nat → Nat → Nat → ℚ) (data : Batch) (stds : List ℚ)
    (labels : List Int) : sgLoop pf dr data stds labels 0 = zerosLike data := rfl

theorem sgLoop_succ (pf : Batch → Option (List Int) → Batch × List Int)
    (dr : Nat → Nat → Nat → ℚ) (data : Batch) (stds : List ℚ)
    (labels : List Int) (n : Nat) :
    sgLoop pf dr data stds labels (n + 1) =
      batchAdd (sgLoop pf dr data stds labels n)
        (roundGrad pf dr data stds labels n) := by
  unfold sgLoop
  rw [List.range_succ, List.foldl_append]
  rfl

theorem dims_roundGrad (pf : Batch → Option (List Int) → Batch × List Int)
    (dr : Nat → Nat → Nat → ℚ) (data : Batch) (stds : List ℚ)
    (labels : List Int) (i : Nat)
    (hpf : ∀ b l, dims ((pf b l).1) = dims b) :
    dims (roundGrad pf dr data stds labels i) = dims data := by
  unfold roundGrad
  rw [hpf, dims_batchAdd data _ (dims_noiseFor stds dr i data).symm]

theorem dims_sgLoop (pf : Batch → Option (List Int) → Batch × List Int)
    (dr : Nat → Nat → Nat → ℚ) (data : Batch) (stds : List ℚ)
    (labels : List Int) (hpf : ∀ b l, dims ((pf b l).1) = dims b) :
    ∀ n, dims (sgLoop pf dr data stds labels n) = dims data
  | 0 => dims_zerosLike data
  | n + 1 => by
      rw [sgLoop_succ,
        dims_batchAdd _ _
          ((dims_sgLoop pf dr data stds labels hpf n).trans
            (dims_roundGrad pf dr data stds labels n hpf).symm),
        dims_sgLoop pf dr data stds labels hpf n]

theorem entry_sgLoop (pf : Batch → Option (List Int) → Batch × List Int)
    (dr : Nat → Nat → Nat → ℚ) (data : Batch) (stds : List ℚ)
    (labels : List Int) (hpf : ∀ b l, dims ((pf b l).1) = dims b) :
    ∀ (n : Nat) (j k : Nat),
      entry (sgLoop pf dr data stds labels n) j k =
        ∑ i ∈ Finset.range n, entry (roundGrad pf dr data stds labels i) j k
  | 0, j, k => by
      rw [sgLoop_zero, entry_zerosLike]
      simp
  | n + 1, j, k => by
      rw [sgLoop_succ,
        entry_batchAdd _ _
          ((dims_sgLoop pf dr data stds labels hpf n).trans
            (dims_roundGrad pf dr data stds labels n hpf).symm),
        entry_sgLoop pf dr data stds labels hpf n, Finset.sum_range_succ]

theorem self_le_foldl_max : ∀ (xs : List ℚ) (x : ℚ), x ≤ xs.foldl max x
  | [], x => le_refl x
  | y :: ys, x => le_trans (le_max_left x y) (self_le_foldl_max ys (max x y))

theorem foldl_min_le_self : ∀ (xs : List ℚ) (x : ℚ), xs.foldl min x ≤ x
  | [], x => le_refl x
  | y :: ys, x => le_trans (foldl_min_le_self ys (min x y)) (min_le_left x y)

theorem listMin_le_listMax : ∀ (d : Image), listMin d ≤ listMax d
  | [] => le_refl 0
  | x :: xs => le_trans (foldl_min_le_self xs x) (self_le_foldl_max xs x)

theorem computeStds_getD (na : ℚ) (data : Batch) (j : Nat) (hj : j < data.length) :
    (computeStds na data).getD j 0 =
      na * (listMax (data.getD j []) - listMin (data.getD j [])) := by
  unfold computeStds
  exact getD_map_of_lt _ data j [] 0 hj

theorem computeStds_nonneg (na : ℚ) (data : Batch) (hna : 0 ≤ na) :
    ∀ s ∈ computeStds na data, 0 ≤ s := by
  intro s hs
  unfold computeStds at hs
  obtain ⟨d, _, rfl⟩ := List.mem_map.1 hs
  exact mul_nonneg hna (sub_nonneg.2 (listMin_le_listMax d))

theorem computeStds_any_neg_false (na : ℚ) (data : Batch) (hna : 0 ≤ na) :
    (computeStds na data).any (fun s => s < 0) = false := by
  rw [List.any_eq_false]
  intro s hs
  simpa using computeStds_nonneg na data hna s hs

theorem sgInterpret_ok (pf : Batch → Option (List Int) → Batch × List Int)
    (dr : Nat → Nat → Nat → ℚ) (data : Batch) (labels? : Option (List Int))
    (na : ℚ) (n : Nat) (L : List Int)
    (hL : resolveLabels pf data labels? = .ok L) (hna : 0 ≤ na) :
    sgInterpret pf dr data labels? na n =
      .ok (batchDiv (sgLoop pf dr data (computeStds na data) L n) n) := by
  unfold sgInterpret
  rw [hL]
  exact if_neg (fun h => by simpa [computeStds_any_neg_false na data hna] using h.2)

theorem batchAdd_noise_zero_std (na : ℚ) (data : Batch)
    (dr : Nat → Nat → Nat → ℚ) (i : Nat)
    (hstd : ∀ j, (computeStds na data).getD j 0 = 0) :
    batchAdd data (noiseFor (computeStds na data) dr i data) = data := by
  apply batch_ext
  · exact dims_batchAdd data _ (dims_noiseFor _ dr i data).symm
  · intro j k
    rw [entry_batchAdd data _ (dims_noiseFor _ dr i data).symm, entry_noiseFor]
    split
    · rw [hstd j, zero_mul, add_zero]
    · rw [add_zero]

theorem roundGrad_zero_std (pf : Batch → Option (List Int) → Batch × List Int)
    (na : ℚ) (data : Batch) (dr : Nat → Nat → Nat → ℚ) (L : List Int) (i : Nat)
    (hstd : ∀ j, (computeStds na data).getD j 0 = 0) :
    roundGrad pf dr data (computeStds na data) L i = (pf data (some L)).1 := by
  unfold roundGrad
  rw [batchAdd_noise_zero_std na data dr i hstd]

theorem computeStds_any_neg_false_of_zero (na : ℚ) (data : Batch)
    (hstd : ∀ j, (computeStds na data).getD j 0 = 0) :
    (computeStds na data).any (fun s => s < 0) = false := by
  rw [List.any_eq_false]
  intro s hs
  obtain ⟨j, hj, rfl⟩ := List.mem_iff_getElem.1 hs
  have hg : (computeStds na data)[j] = (computeStds na data).getD j 0 := by
    rw [List.getD_eq_getElem?_getD, List.getElem?_eq_getElem hj]
    rfl
  rw [hg, hstd j]
  simp

theorem sgInterpret_zero_std (pf : Batch → Option (List Int) → Batch × List Int)
    (dr : Nat → Nat → Nat → ℚ) (data : Batch) (labels? : Option (List Int))
    (na : ℚ) (n : Nat) (L : List Int)
    (hpf : ∀ b l, dims ((pf b l).1) = dims b)
    (hstd : ∀ j, (computeStds na data).getD j 0 = 0)
    (hL : resolveLabels pf data labels? = .ok L) (hn : 0 < n) :
    sgInterpret pf dr data labels? na n = .ok ((pf data (some L)).1) := by
  have hok : sgInterpret pf dr data labels? na n =
      .ok (batchDiv (sgLoop pf dr data (computeStds na data) L n) n) := by
    unfold sgInterpret
    rw [hL]
    exact if_neg (fun h => by
      simpa [computeStds_any_neg_false_of_zero na data hstd] using h.2)
  rw [hok]
  refine congrArg Except.ok (batch_ext _ _ ?_ ?_)
  · rw [dims_batchDiv, dims_sgLoop pf dr data _ L hpf n, hpf data (some L)]
  · intro j k
    rw [entry_batchDiv, entry_sgLoop pf dr data _ L hpf n]
    have hconst : ∀ i ∈ Finset.range n,
        entry (roundGrad pf dr data (computeStds na data) L i) j k =
          entry ((pf data (some L)).1) j k := by
      intro i _
      rw [roundGrad_zero_std pf na data dr L i hstd]
    rw [Finset.sum_congr rfl hconst, Finset.sum_const, Finset.card_range,
      nsmul_eq_mul,
      mul_div_cancel_left₀ _ (Nat.cast_ne_zero.mpr hn.ne' : (n : ℚ) ≠ 0)]

/-! ## Claims about `SmoothGradInterpreter.interpret` -/

/-- C1: the sampling loop of `SmoothGradInterpreter.interpret` runs exactly
`n_samples` rounds; round `i` adds its own fresh per-image Gaussian noise to
the original clean batch `data` (never to a previously-perturbed batch — the
perturbed input of round `i` is `batchAdd data (noiseFor … i data)`, a
function of the unchanged original), feeds it to the predict function, and
accumulates the gradient batch into a zero-initialized accumulator; the
returned value equals the accumulated sum divided elementwise by
`n_samples`. -/
theorem smoothgrad_interpret_is_average_of_fresh_rounds
    (pf : Batch → Option (List Int) → Batch × List Int)
    (dr : Nat → Nat → Nat → ℚ) (data : Batch) (labels? : Option (List Int))
    (na : ℚ) (n : Nat) (L : List Int)
    (hpf : ∀ b l, dims ((pf b l).1) = dims b)
    (hL : resolveLabels pf data labels? = .ok L)
    (hna : 0 ≤ na) (hn : 0 < n) :
    ∃ r, sgInterpret pf dr data labels? na n = .ok r ∧ dims r = dims data ∧
      ∀ j k, entry r j k =
        (∑ i ∈ Finset.range n,
            entry ((pf (batchAdd data (noiseFor (computeStds na data) dr i data))
              (some L)).1) j k) / (n : ℚ) := by
  refine ⟨_, sgInterpret_ok pf dr data labels? na n L hL hna, ?_, ?_⟩
  · rw [dims_batchDiv]
    exact dims_sgLoop pf dr data (computeStds na data) L hpf n
  · intro j k
    rw [entry_batchDiv, entry_sgLoop pf dr data (computeStds na data) L hpf n]
    unfold roundGrad
    rfl

/-- Concrete deterministic predict function used by witnesses: gradients equal
the input batch, predicted labels are `[0]`. -/
def pfId : Batch → Option (List Int) → Batch × List Int := fun b _ => (b, [0])

/-- Concrete standard-normal draws used by witnesses. -/
def drZero : Nat → Nat → Nat → ℚ := fun _ _ _ => 0

/-- Witness for C1 at a concrete input. -/
theorem smoothgrad_interpret_is_average_of_fresh_rounds_witness :
    (∀ b l, dims ((pfId b l).1) = dims b) ∧
    resolveLabels pfId [[1, 2]] (some [5]) = .ok [5] ∧
    (0 : ℚ) ≤ 1 ∧ 0 < 2 ∧
    (∃ r, sgInterpret pfId drZero [[1, 2]] (some [5]) 1 2 = .ok r ∧
      dims r = dims [[1, 2]] ∧
      ∀ j k, entry r j k =
        (∑ i ∈ Finset.range 2,
            entry ((pfId (batchAdd [[1, 2]] (noiseFor (computeStds 1 [[1, 2]]) drZero i [[1, 2]]))
              (some [5])).1) j k) / (2 : ℚ)) :=
  ⟨fun _ _ => rfl, rfl, by norm_num, by decide,
    smoothgrad_interpret_is_average_of_fresh_rounds pfId drZero [[1, 2]] (some [5]) 1 2 [5]
      (fun _ _ => rfl) rfl (by norm_num) (by decide)⟩

/-- C2: with all per-image noise standard deviations equal to zero (for
example with `noise_amount = 0`, which yields `computeStds 0 data` all zero),
the averaged gradient returned by `interpret` is the same for every
`n_samples ≥ 1`, and indeed independent of the random draws; in particular the
results for `n_samples` 1, 5 and 50 coincide. -/
theorem smoothgrad_interpret_zero_std_sample_count_invariant
    (pf : Batch → Option (List Int) → Batch × List Int)
    (dr dr' : Nat → Nat → Nat → ℚ) (data : Batch) (labels? : Option (List Int))
    (na : ℚ) (n₁ n₂ : Nat)
    (hpf : ∀ b l, dims ((pf b l).1) = dims b)
    (hstd : ∀ j, (computeStds na data).getD j 0 = 0)
    (h1 : 0 < n₁) (h2 : 0 < n₂) :
    sgInterpret pf dr data labels? na n₁ = sgInterpret pf dr' data labels? na n₂ := by
  cases hres : resolveLabels pf data labels? with
  | error e =>
      unfold sgInterpret
      rw [hres]
  | ok L =>
      rw [sgInterpret_zero_std pf dr data labels? na n₁ L hpf hstd hres h1,
        sgInterpret_zero_std pf dr' data labels? na n₂ L hpf hstd hres h2]

/-- Witness for C2 at a concrete input: `noise_amount = 0`, sample counts 1,
5 and 50 (instantiated as the pairs (1, 5) and (5, 50)). -/
theorem smoothgrad_interpret_zero_std_sample_count_invariant_witness :
    (∀ j, (computeStds 0 [[1, 2]]).getD j 0 = 0) ∧ 0 < 1 ∧ 0 < 5 ∧ 0 < 50 ∧
    sgInterpret pfId drZero [[1, 2]] (some [5]) 0 1 =
      sgInterpret pfId drZero [[1, 2]] (some [5]) 0 5 ∧
    sgInterpret pfId drZero [[1, 2]] (some [5]) 0 5 =
      sgInterpret pfId drZero [[1, 2]] (some [5]) 0 50 := by
  have hstd : ∀ j, (computeStds 0 [[1, 2]]).getD j 0 = 0 := by
    intro j
    have hz : computeStds 0 [[1, 2]] = ([[1, 2]] : Batch).map (fun _ => (0 : ℚ)) := by
      simp [computeStds]
    rw [hz, getD_map_zero]
  exact ⟨hstd, by decide, by decide, by decide,
    smoothgrad_interpret_zero_std_sample_count_invariant pfId drZero drZero [[1, 2]]
      (some [5]) 0 1 5 (fun _ _ => rfl) hstd (by decide) (by decide),
    smoothgrad_interpret_zero_std_sample_count_invariant pfId drZero drZero [[1, 2]]
      (some [5]) 0 5 50 (fun _ _ => rfl) hstd (by decide) (by decide)⟩

/-- C3: the per-image noise standard deviation is `noise_amount * (max - min)`
of that image's values over all non-batch axes; the stds are computed from the
unperturbed `data` and the noise of every sampling round `i` scales the draws
by exactly that clean-data quantity; concretely, for two images with values in
[0,10] and [-5,5] and `noise_amount = 1/10`, both stds equal 1. -/
theorem smoothgrad_stds_from_clean_data
    (na : ℚ) (data : Batch) (dr : Nat → Nat → Nat → ℚ) (i j k : Nat)
    (hj : j < data.length) (hk : k < (data.getD j []).length) :
    (computeStds na data).getD j 0 =
        na * (listMax (data.getD j []) - listMin (data.getD j [])) ∧
    entry (noiseFor (computeStds na data) dr i data) j k =
        na * (listMax (data.getD j []) - listMin (data.getD j [])) * dr i j k ∧
    computeStds (1 / 10 : ℚ) [[0, 4, 10, 7], [-5, 5, 0, 2]] = [1, 1] := by
  refine ⟨computeStds_getD na data j hj, ?_, ?_⟩
  · rw [entry_noiseFor, if_pos ⟨hj, hk⟩, computeStds_getD na data j hj]
  · norm_num [computeStds, listMax, listMin, max_def, min_def]

/-- Witness for C3 at a concrete input. -/
theorem smoothgrad_stds_from_clean_data_witness :
    0 < ([[0, 4, 10, 7], [-5, 5, 0, 2]] : Batch).length ∧
    0 < (([[0, 4, 10, 7], [-5, 5, 0, 2]] : Batch).getD 0 []).length ∧
    ((computeStds (1 / 10) [[0, 4, 10, 7], [-5, 5, 0, 2]]).getD 0 0 =
        (1 / 10 : ℚ) *
          (listMax (([[0, 4, 10, 7], [-5, 5, 0, 2]] : Batch).getD 0 []) -
            listMin (([[0, 4, 10, 7], [-5, 5, 0, 2]] : Batch).getD 0 [])) ∧
      entry (noiseFor (computeStds (1 / 10) [[0, 4, 10, 7], [-5, 5, 0, 2]]) drZero 3
          [[0, 4, 10, 7], [-5, 5, 0, 2]]) 0 0 =
        (1 / 10 : ℚ) *
          (listMax (([[0, 4, 10, 7], [-5, 5, 0, 2]] : Batch).getD 0 []) -
            listMin (([[0, 4, 10, 7], [-5, 5, 0, 2]] : Batch).getD 0 [])) * drZero 3 0 0 ∧
      computeStds (1 / 10 : ℚ) [[0, 4, 10, 7], [-5, 5, 0, 2]] = [1, 1]) :=
  ⟨by decide, by decide,
    smoothgrad_stds_from_clean_data (1 / 10) [[0, 4, 10, 7], [-5, 5, 0, 2]] drZero 3 0 0
      (by decide) (by decide)⟩

/-- C4: the label vector is fixed before sampling — with `labels = None` it is
the second output of one predict call on the clean data with `None` labels,
otherwise the provided labels reshaped to a column of length equal to the
batch size (a `ValueError` on a length mismatch) — and the sampling loop
depends only on the predict function's behaviour at that fixed label vector:
two predict functions that agree whenever called with labels `L` produce
identical loops, so every one of the `n_samples` in-loop calls receives
exactly `L`. -/
theorem smoothgrad_labels_fixed_across_rounds
    (pf pf' : Batch → Option (List Int) → Batch × List Int)
    (dr : Nat → Nat → Nat → ℚ) (data : Batch) (L l : List Int) (stds : List ℚ)
    (hfix : ∀ b, pf b (some L) = pf' b (some L)) :
    ((pf data none).2.length = data.length →
        resolveLabels pf data none = .ok ((pf data none).2)) ∧
    (l.length = data.length → resolveLabels pf data (some l) = .ok l) ∧
    (l.length ≠ data.length →
        resolveLabels pf data (some l) = .error .valueError) ∧
    (∀ n, sgLoop pf dr data stds L n = sgLoop pf' dr data stds L n) := by
  refine ⟨?_, ?_, ?_, ?_⟩
  · intro h
    unfold resolveLabels
    exact if_pos h
  · intro h
    unfold resolveLabels
    exact if_pos h
  · intro h
    unfold resolveLabels
    exact if_neg h
  · intro n
    induction n with
    | zero => rfl
    | succ m ih =>
        rw [sgLoop_succ, sgLoop_succ, ih]
        unfold roundGrad
        rw [hfix]

/-- A second predict function for the C4 witness: it agrees with `pfId` when
called with labels `[5]` and differs otherwise. -/
def pfAlt : Batch → Option (List Int) → Batch × List Int := fun b l =>
  match l with
  | some [5] => (b, [0])
  | _ => (zerosLike b, [1])

/-- Witness for C4 at a concrete input. -/
theorem smoothgrad_labels_fixed_across_rounds_witness :
    (∀ b, pfId b (some [5]) = pfAlt b (some [5])) ∧
    (((pfId [[1, 2]] none).2.length = ([[1, 2]] : Batch).length →
        resolveLabels pfId [[1, 2]] none = .ok ((pfId [[1, 2]] none).2)) ∧
      (([5] : List Int).length = ([[1, 2]] : Batch).length →
        resolveLabels pfId [[1, 2]] (some [5]) = .ok [5]) ∧
      (([5] : List Int).length ≠ ([[1, 2]] : Batch).length →
        resolveLabels pfId [[1, 2]] (some [5]) = .error .valueError) ∧
      ∀ n, sgLoop pfId drZero [[1, 2]] [0] [5] n = sgLoop pfAlt drZero [[1, 2]] [0] [5] n) :=
  ⟨fun _ => rfl,
    smoothgrad_labels_fixed_across_rounds pfId pfAlt drZero [[1, 2]] [5] [5] [0]
      (fun _ => rfl)⟩

/-! ## Claims about the interpreter base classes -/

/-- C5: constructing a `SmoothGradInterpreter` always raises `TypeError`: its
`__init__` invokes `Interpreter.__init__(self)` with none of the three
required arguments (`paddle_model`, `device`, `use_cuda`), so no instance can
ever be created through this constructor, for any argument values and any
runtime. -/
theorem smoothgrad_init_always_type_error {M : Type} (cudaAvailable : Bool)
    (pm : M) (use_cuda : Bool) (model_input_shape : List Nat) :
    smoothGradInit cudaAvailable pm use_cuda model_input_shape =
      .error .typeError := rfl

/-- C6: the `_build_predict_fn` state machine on `predict_fn`: unset → a build
installs a freshly built callable; cached callable and `rebuild = false` → the
call is a no-op; cached callable and `rebuild = true` → the cached value is
replaced by a newly built callable; cached non-callable → assertion error. -/
theorem build_predict_fn_state_machine {M : Type} (cudaAvailable : Bool)
    (st : InterpreterState M) (rebuild : Bool) (gradient_of : String)
    (hg : gradient_of ∈ validGradientOf) :
    (st.predict_fn = none →
        ∃ st', buildPredictFn cudaAvailable st rebuild gradient_of = .ok st' ∧
          st'.predict_fn = some (.builtFn gradient_of)) ∧
    (∀ f, st.predict_fn = some f → f.callableB = true → rebuild = false →
        buildPredictFn cudaAvailable st rebuild gradient_of = .ok st) ∧
    (∀ f, st.predict_fn = some f → f.callableB = true → rebuild = true →
        ∃ st', buildPredictFn cudaAvailable st rebuild gradient_of = .ok st' ∧
          st'.predict_fn = some (.builtFn gradient_of)) ∧
    (st.predict_fn = some .notCallable →
        buildPredictFn cudaAvailable st rebuild gradient_of =
          .error .assertionError) := by
  have hbody : ∀ s : InterpreterState M,
      ∃ st', buildBody cudaAvailable s gradient_of = .ok st' ∧
        st'.predict_fn = some (.builtFn gradient_of) := by
    intro s
    unfold buildBody
    rw [if_pos hg]
    exact ⟨_, rfl, rfl⟩
  refine ⟨?_, ?_, ?_, ?_⟩
  · intro hnone
    unfold buildPredictFn
    rw [hnone]
    exact hbody st
  · intro f hf hcb hrb
    unfold buildPredictFn
    rw [hf]
    simp [hcb, hrb]
  · intro f hf hcb hrb
    unfold buildPredictFn
    rw [hf]
    simpa [hcb, hrb] using hbody st
  · intro hnc
    unfold buildPredictFn
    rw [hnc]
    rfl

/-- Witness for C6 at a concrete input (the unset → cached transition). -/
theorem build_predict_fn_state_machine_witness :
    "probability" ∈ validGradientOf ∧
    (∃ st', buildPredictFn true
        ({ paddle_model := (), device := "cpu", predict_fn := none, log := [] } :
          InterpreterState Unit) false "probability" = .ok st' ∧
      st'.predict_fn = some (.builtFn "probability")) :=
  ⟨by decide,
    (build_predict_fn_state_machine true
      { paddle_model := (), device := "cpu", predict_fn := none, log := [] }
      false "probability" (by decide)).1 rfl⟩

/-- C7 counterexample: a call of `_build_predict_fn` with an invalid
`gradient_of` does not fail when a callable `predict_fn` is already cached and
`rebuild` is false — the whole rebuild body, including the
`assert gradient_of in [...]`, is skipped. -/
theorem build_predict_fn_skips_validation_when_cached :
    ("bogus" ∈ validGradientOf → False) ∧
    buildPredictFn true
        ({ paddle_model := (), device := "cpu",
           predict_fn := some (.builtFn "probability"), log := [] } :
          InterpreterState Unit) false "bogus" =
      .ok { paddle_model := (), device := "cpu",
            predict_fn := some (.builtFn "probability"), log := [] } :=
  ⟨by decide, rfl⟩

/-- C7 amended: a call of `_build_predict_fn` with `gradient_of` outside
{loss, logit, probability} fails with an assertion error whenever it would
actually build (`predict_fn` unset or `rebuild` true); in every case in which
such a call succeeds it leaves the state unchanged, so an invalid
`gradient_of` is never captured into a predict function and never causes a
deferred failure at predict-function call time. -/
theorem build_predict_fn_invalid_gradient_of {M : Type} (cudaAvailable : Bool)
    (st : InterpreterState M) (rebuild : Bool) (gradient_of : String)
    (hg : gradient_of ∉ validGradientOf) :
    ((st.predict_fn = none ∨ rebuild = true) →
        buildPredictFn cudaAvailable st rebuild gradient_of =
          .error .assertionError) ∧
    (∀ st', buildPredictFn cudaAvailable st rebuild gradient_of = .ok st' →
        st' = st) := by
  have hbody : buildBody cudaAvailable st gradient_of = .error .assertionError := by
    unfold buildBody
    rw [if_neg hg]
  constructor
  · intro hor
    unfold buildPredictFn
    cases hpf : st.predict_fn with
    | none => exact hbody
    | some f =>
        have hr : rebuild = true := by
          rcases hor with h | h
          · rw [hpf] at h
            cases h
          · exact h
        subst hr
        cases f.callableB <;> simp [hbody]
  · intro st' hok
    unfold buildPredictFn at hok
    cases hpf : st.predict_fn with
    | none =>
        rw [hpf, hbody] at hok
        cases hok
    | some f =>
        rw [hpf] at hok
        cases hcb : f.callableB with
        | false => simp [hcb] at hok
        | true =>
            cases hrb : rebuild with
            | false =>
                simp [hcb, hrb] at hok
                exact hok.symm
            | true => simp [hcb, hrb, hbody] at hok

/-- Witness for C7-amended at a concrete input. -/
theorem build_predict_fn_invalid_gradient_of_witness :
    ("bogus2" ∈ validGradientOf → False) ∧
    ((({ paddle_model := (), device := "cpu", predict_fn := none, log := [] } :
          InterpreterState Unit).predict_fn = none ∨ false = true) →
      buildPredictFn true
          ({ paddle_model := (), device := "cpu", predict_fn := none, log := [] } :
            InterpreterState Unit) false "bogus2" = .error .assertionError) ∧
    (∀ st', buildPredictFn true
          ({ paddle_model := (), device := "cpu", predict_fn := none, log := [] } :
            InterpreterState Unit) false "bogus2" = .ok st' →
        st' = { paddle_model := (), device := "cpu", predict_fn := none, log := [] }) :=
  ⟨by decide,
    (build_predict_fn_invalid_gradient_of true
      { paddle_model := (), device := "cpu", predict_fn := none, log := [] }
      false "bogus2" (by decide)).1,
    (build_predict_fn_invalid_gradient_of true
      { paddle_model := (), device := "cpu", predict_fn := none, log := [] }
      false "bogus2" (by decide)).2⟩

/-- C8: for a construction of `Interpreter` with boolean `use_cuda` that
passes the device assertion, the stored device equals the requested one
exactly when `use_cuda` is true and the device's three-character category is
`gpu`; in every other boolean case it is silently forced to `cpu`. -/
theorem interpreter_init_device_resolution {M : Type} (pm : M) (device : String)
    (b : Bool) (st : InterpreterState M)
    (hinit : interpreterInit pm device (if b then .pyTrue else .pyFalse) = .ok st) :
    (b = true ∧ device.take 3 = "gpu" → st.device = device) ∧
    (¬(b = true ∧ device.take 3 = "gpu") → st.device = "cpu") := by
  unfold interpreterInit at hinit
  by_cases hdev : device.take 3 ∈ ["cpu", "gpu"]
  · rw [if_pos hdev] at hinit
    cases b with
    | true =>
        by_cases hg : device.take 3 = "gpu"
        · simp only [if_pos hg] at hinit
          have h := Except.ok.inj hinit
          subst h
          exact ⟨fun _ => rfl, fun hc => absurd ⟨rfl, hg⟩ hc⟩
        · simp only [if_neg hg] at hinit
          have h := Except.ok.inj hinit
          subst h
          exact ⟨fun hc => absurd hc.2 hg, fun _ => rfl⟩
    | false =>
        have h := Except.ok.inj hinit
        subst h
        exact ⟨fun hc => Bool.noConfusion hc.1, fun _ => rfl⟩
  · rw [if_neg hdev] at hinit
    cases hinit

/-- Witness for C8 at concrete inputs. -/
theorem interpreter_init_device_resolution_witness :
    interpreterInit () "gpu:0" (if true then UseCuda.pyTrue else .pyFalse) =
      .ok ({ paddle_model := (), device := "gpu:0", predict_fn := none,
             log := [useCudaWarning] } : InterpreterState Unit) ∧
    ({ paddle_model := (), device := "gpu:0", predict_fn := none,
       log := [useCudaWarning] } : InterpreterState Unit).device = "gpu:0" :=
  ⟨rfl,
    (interpreter_init_device_resolution () "gpu:0" true
        { paddle_model := (), device := "gpu:0", predict_fn := none,
          log := [useCudaWarning] } rfl).1 ⟨rfl, rfl⟩⟩

/-- C9: the claimed recovery cannot happen for `SmoothGradInterpreter`: on a
runtime without accelerator support, constructing it with `use_cuda = True`
raises `TypeError` inside `Interpreter.__init__(self)` before the
`use_cuda`-correction lines of `smooth_grad.py` are ever reached. -/
theorem smoothgrad_init_raises_before_use_cuda_correction :
    smoothGradInit false () true [3, 224, 224] = .error .typeError := rfl

/-- C10: under the collaborator contracts the source relies on — the autodiff
engine returns a gradient shaped like its input tensor and model forward plus
softmax yield `B` probability rows for a batch of `B` — the built predict
function, applied to a `[B, H, W, 3]` batch with labels absent or of length
`B`, returns a gradient tensor of shape `[B, H, W, 3]` and labels of length
`B`, for every `gradient_of`. -/
theorem predict_fn_shape_and_labels (env : PdEnv) (gradient_of : String)
    (data : NdArray) (labels? : Option (List Int)) (B H W : Nat)
    (hshape : data.shape = [B, H, W, 3])
    (hgrad : ∀ d l, (env.gradWrt d l).shape = d.shape)
    (hrows : (igProbas env data).length = B)
    (hlab : labels? = none ∨ ∃ l, labels? = some l ∧ l.length = B) :
    ∃ gr lab, predictFnIG env gradient_of data labels? = .ok (gr, lab) ∧
      gr.shape = [B, H, W, 3] ∧ lab.length = B := by
  have h4 : ¬data.shape.length ≠ 4 := by
    rw [hshape]
    simp
  have hhead : data.shape.headD 0 = B := by
    rw [hshape]
    rfl
  have hok : labelsOkB (data.shape.headD 0) labels? = true := by
    rcases hlab with h | ⟨l, hl, hll⟩
    · rw [h]
      rfl
    · rw [hl, hhead]
      simp [labelsOkB, hll]
  have hlen : (igLabels env data labels?).length = B := by
    rcases hlab with h | ⟨l, hl, hll⟩
    · rw [igLabels, h]
      simpa [igPreds] using hrows
    · rw [igLabels, hl]
      simpa using hll
  unfold predictFnIG
  rw [if_neg h4, if_neg (fun hf => Bool.noConfusion (hok.symm.trans hf))]
  by_cases hgl : gradient_of = "loss"
  · rw [if_pos hgl]
    exact ⟨_, _, rfl, by rw [hgrad, hshape], hlen⟩
  · rw [if_neg hgl, if_neg (fun hne => hne (hlen.trans hhead.symm))]
    exact ⟨_, _, rfl, by rw [hgrad, hshape], hlen⟩

/-- Concrete paddle collaborators for the C10 witness: a constant model with
two logits, identity softmax, zero cross-entropy, and an autodiff engine
returning the data tensor itself (its shape contract holds trivially). -/
def envW : PdEnv :=
  { model := fun _ => [[1, 2]],
    softmaxRows := fun m => m,
    crossEntropySum := fun _ _ => 0,
    gradWrt := fun d _ => d }

/-- Concrete `[1, 2, 2, 3]` input tensor for the C10 witness. -/
def dataW : NdArray := { shape := [1, 2, 2, 3], flat := List.replicate 12 0 }

/-- Witness for C10 at a concrete input. -/
theorem predict_fn_shape_and_labels_witness :
    dataW.shape = [1, 2, 2, 3] ∧
    (∀ d l, (envW.gradWrt d l).shape = d.shape) ∧
    (igProbas envW dataW).length = 1 ∧
    ((none : Option (List Int)) = none ∨
      ∃ l, (none : Option (List Int)) = some l ∧ l.length = 1) ∧
    ∃ gr lab, predictFnIG envW "probability" dataW none = .ok (gr, lab) ∧
      gr.shape = [1, 2, 2, 3] ∧ lab.length = 1 :=
  ⟨rfl, fun _ _ => rfl, rfl, Or.inl rfl,
    predict_fn_shape_and_labels envW "probability" dataW none 1 2 2 rfl
      (fun _ _ => rfl) rfl (Or.inl rfl)⟩

end InterpretDL
